import Mathlib

/-!
Shallow embedding of the OPK keycap generator (src/opk.py and
src/generate_exports.py) over exact rational arithmetic.

The repository delegates all boundary-representation geometry to an external
kernel; the code under verification is the parametrization recipe: dimension
formulas, stem-point layout, the fillet retry loop, stem-profile selection,
the construction sequencing of `make_keycap`, and batch placement.  Kernel
calls are therefore embedded symbolically: each solid is represented by the
exact numeric arguments the code hands to the kernel, and the one fallible
kernel operation used by the code (the surface fillet) is an oracle
`ℚ → Bool` telling whether the kernel succeeds at a given radius.  Python
floats are modelled by `ℚ`; every numeric literal in the source is an exact
decimal, so the formulas carry over verbatim.
-/

namespace OPK

/-! ## Module-level reference constants (src/opk.py lines 31-43) -/

def unit_x : ℚ := 2
def unit_y : ℚ := 1
def base_dim : ℚ := 18.2
def top_dim : ℚ := 12.5
def b_fillet : ℚ := 0.5
def t_fillet : ℚ := 3.5
def s_fillet : ℚ := 0.9
def height : ℚ := 9
def angle : ℚ := 2
def depth : ℚ := 2.5
def thickness : ℚ := 1.5
def convex : Bool := true
def pos : Bool := false

/-! ## Dimension calculators (src/opk.py lines 46-62) -/

/-- `calc_base_dim`: keycap dimensions at the bottom.  The inner helper
`dim(unit) = 19.05 * unit - (19.05 - base_dim)` is applied to each axis. -/
def calc_base_dim (unit_x unit_y base_dim : ℚ) : List ℚ :=
  let dim := fun (unit : ℚ) => 19.05 * unit - (19.05 - base_dim)
  [dim unit_x, dim unit_y]

/-- Python `min` over a list; Python raises on an empty list, which the code
never produces, so the empty case carries a junk value. -/
def py_min : List ℚ → ℚ
  | [] => 0
  | x :: xs => xs.foldl min x

/-- `calc_top_dim`: dimensions at the top, before tilting and scooping.
`diff = min(base_dims) - top_dim`; each axis is shrunk by `diff`. -/
def calc_top_dim (base_dims : List ℚ) (top_dim : ℚ) : List ℚ :=
  let diff := py_min base_dims - top_dim
  base_dims.map (fun x => x - diff)

/-! ## Stem point layout (src/opk.py lines 168-203) -/

/-- Python `round(q, 6)`.  Mathlib `round` is round-half-up while Python
rounds half to even; every value the code rounds is an exact multiple of
`1/2000`, never half way at the sixth decimal, so the two agree there. -/
def py_round6 (q : ℚ) : ℚ := (round (q * 1000000) : ℤ) / 1000000

/-- One step of a stable insertion sort on the key `fun p => p.1 + p.2`:
an element is inserted after all existing elements of equal key, matching
the stability of Python `list.sort`. -/
def insert_by_sum (p : ℚ × ℚ) : List (ℚ × ℚ) → List (ℚ × ℚ)
  | [] => [p]
  | q :: qs =>
    if q.1 + q.2 ≤ p.1 + p.2 then q :: insert_by_sum p qs else p :: q :: qs

/-- `stem_pts.sort(key=lambda x: sum(x))`: stable sort ascending by
coordinate sum. -/
def sort_by_sum (l : List (ℚ × ℚ)) : List (ℚ × ℚ) :=
  l.foldl (fun acc p => insert_by_sum p acc) []

/-- `calc_stem_points`: locations of the stems.  Mirrors the source line by
line: the POS flag is forced off when both axes are below 2; the standard
branch places a centre stem plus stabilizers chosen by the longer axis; the
POS branch lays a per-unit grid; the result is sorted by coordinate sum. -/
def calc_stem_points (unit_x unit_y : ℚ) (pos : Bool) : List (ℚ × ℚ) :=
  let pos := if unit_x < 2 ∧ unit_y < 2 then false else pos
  let stem_pts : List (ℚ × ℚ) :=
    if !pos then
      let stem_pts : List (ℚ × ℚ) := [(0, 0)]
      let width := if unit_x ≥ unit_y then unit_x else unit_y
      let stem_pts :=
        if width > 2.75 then
          let dist := width / 2 * 19.05 - 19.05 / 2
          stem_pts ++ [(dist, 0), (-dist, 0)]
        else if width > 1.75 then
          let dist := (2.25 : ℚ) / 2 * 19.05 - 19.05 / 2
          stem_pts ++ [(dist, 0), (-dist, 0)]
        else stem_pts
      if unit_y > unit_x then stem_pts.map (fun p => (p.2, p.1)) else stem_pts
    else
      let stem_num_x := (⌊unit_x⌋ : ℤ).toNat
      let stem_num_y := (⌊unit_y⌋ : ℤ).toNat
      let stem_start_x := py_round6 (-19.05 * ((stem_num_x : ℚ) / 2) + 19.05 / 2)
      let stem_start_y := py_round6 (-19.05 * ((stem_num_y : ℚ) / 2) + 19.05 / 2)
      (List.range stem_num_y).flatMap (fun i =>
        (List.range stem_num_x).map (fun l =>
          (stem_start_x + l * 19.05, stem_start_y + i * 19.05)))
  sort_by_sum stem_pts

/-! ## Symbolic solids

The geometry kernel is external; a solid constructed by the code is
represented by the exact numeric arguments the code passes to the kernel
calls that build it. -/

/-- One scoop profile section: `moveTo p0`, `threePointArc mid p1`,
`lineTo l1`, `lineTo l2`, `close`. -/
structure ArcProfile where
  p0 : ℚ × ℚ
  mid : ℚ × ℚ
  p1 : ℚ × ℚ
  l1 : ℚ × ℚ
  l2 : ℚ × ℚ
deriving DecidableEq

/-- The convex scoop: one profile on a transformed YZ workplane, extruded. -/
structure ConvexScoop where
  offset : ℚ × ℚ × ℚ
  rotate : ℚ
  profile : ArcProfile
  extrudeDist : ℚ
deriving DecidableEq

/-- The non-convex scoop: three profile sections lofted, the second and third
on workplanes shifted by `off2` and `off3`. -/
structure LoftScoop where
  offset : ℚ × ℚ × ℚ
  rotate : ℚ
  s1 : ArcProfile
  off2 : ℚ
  s2 : ArcProfile
  off3 : ℚ
  s3 : ArcProfile
deriving DecidableEq

/-- A scoop body as handed to the kernel. -/
inductive ScoopBody
  | convexBody : ConvexScoop → ScoopBody
  | loftBody : LoftScoop → ScoopBody
deriving DecidableEq

/-- `make_scoop` (src/opk.py lines 104-147).  The Python function reads the
module-level global `depth` at lines 129, 135 and 141; that module state is
passed explicitly as `g_depth`. -/
def make_scoop (base_x base_y height angle : ℚ) (convex : Bool) (g_depth : ℚ) :
    ScoopBody :=
  if convex then
    ScoopBody.convexBody
      { offset := (0, height - 2.1, -base_x / 2)
        rotate := angle
        profile :=
          { p0 := (-base_y / 2, -1)
            mid := (0, 2)
            p1 := (base_y / 2, -1)
            l1 := (base_y / 2, 10)
            l2 := (-base_y / 2, 10) }
        extrudeDist := base_x }
  else
    ScoopBody.loftBody
      { offset := (0, height, base_x / 2)
        rotate := angle
        s1 :=
          { p0 := (-base_y / 2 + 2, 0)
            mid := (0, min (-0.1) (-g_depth + 1.5))
            p1 := (base_y / 2 - 2, 0)
            l1 := (base_y / 2, height)
            l2 := (-base_y / 2, height) }
        off2 := -base_x / 2
        s2 :=
          { p0 := (-base_y / 2 - 2, -0.5)
            mid := (0, -g_depth)
            p1 := (base_y / 2 + 2, -0.5)
            l1 := (base_y / 2, height)
            l2 := (-base_y / 2, height) }
        off3 := -base_x / 2
        s3 :=
          { p0 := (-base_y / 2 + 2, 0)
            mid := (0, min (-0.1) (-g_depth + 1.5))
            p1 := (base_y / 2 - 2, 0)
            l1 := (base_y / 2, height)
            l2 := (-base_y / 2, height) } }

/-- A lofted shell as handed to the kernel: three rounded-rectangle sections
(base, quarter-height mid, raised and tilted top). -/
structure ShellSpec where
  baseDims : List ℚ
  baseFillet : ℚ
  midFillet : ℚ
  topDims : List ℚ
  topFillet : ℚ
  height : ℚ
  angle : ℚ
deriving DecidableEq

/-- `make_keycap_shell` (src/opk.py lines 69-94): a top fillet smaller than
the base fillet is forced to `b_fillet + 1`; the mid section uses fillet
`(t_fillet - b_fillet) / 4`. -/
def make_keycap_shell (base_dims : List ℚ) (b_fillet : ℚ) (top_dims : List ℚ)
    (t_fillet : ℚ) (height angle : ℚ) : ShellSpec :=
  let t_fillet := if t_fillet < b_fillet then b_fillet + 1 else t_fillet
  { baseDims := base_dims
    baseFillet := b_fillet
    midFillet := (t_fillet - b_fillet) / 4
    topDims := top_dims
    topFillet := t_fillet
    height := height
    angle := angle }

/-! ## Stem construction (src/opk.py lines 272-289) -/

/-- Which of the two stem solids is built at a point. -/
inductive StemProfile
  | cherry
  | alps
deriving DecidableEq

/-- The branch at src/opk.py lines 283-286: the alps solid is built exactly
when the point is the centre and the type is alps; otherwise cherry. -/
def stem_profile_for (pt : ℚ × ℚ) (type : String) : StemProfile :=
  if pt = (0, 0) ∧ type = "alps" then StemProfile.alps else StemProfile.cherry

/-- `make_stems`: computes the stem points, raises `TypeError` on an
unrecognised type, else builds one stem solid per point. -/
def make_stems (unit_x unit_y : ℚ) (pos : Bool) (type : String) :
    Except String (List ((ℚ × ℚ) × StemProfile)) :=
  let stem_pts := calc_stem_points unit_x unit_y pos
  if ¬ (type ∈ ["cherry", "alps"]) then
    Except.error "stem type must be one of [\"cherry\", \"alps\"]"
  else
    Except.ok (stem_pts.map fun pt => (pt, stem_profile_for pt type))

/-! ## The fillet retry loop (src/opk.py lines 327-334)

The kernel's surface fillet is the one fallible operation the code uses; it
is modelled by an oracle `fillet_ok : ℚ → Bool` giving success at a radius.
The `while not filleted` loop has no bound, so it is embedded with explicit
fuel: exhausted fuel models divergence. -/

/-- Result of the retry loop: the radius at which the fillet finally
succeeded, or `none` if the loop is still running when the fuel runs out. -/
def fillet_retry (fillet_ok : ℚ → Bool) (surface_fillet : ℚ) : ℕ → Option ℚ
  | 0 => none
  | fuel + 1 =>
    if fillet_ok surface_fillet then some surface_fillet
    else fillet_retry fillet_ok (surface_fillet - 0.1) fuel

/-- The sequence of fillet attempts (radius, outcome) the loop performs. -/
def fillet_trace (fillet_ok : ℚ → Bool) (surface_fillet : ℚ) : ℕ → List (ℚ × Bool)
  | 0 => []
  | fuel + 1 =>
    if fillet_ok surface_fillet then [(surface_fillet, true)]
    else (surface_fillet, false) :: fillet_trace fillet_ok (surface_fillet - 0.1) fuel

/-! ## The keycap assembler `make_keycap` (src/opk.py lines 292-339) -/

/-- Module-level globals read inside `make_keycap` and `make_scoop`:
`thickness` (lines 309, 310, 317) and `depth` (via `make_scoop`). -/
structure Globals where
  depth : ℚ
  thickness : ℚ
deriving DecidableEq

/-- The module state as initialised at src/opk.py lines 40-41. -/
def module_globals : Globals := { depth := depth, thickness := thickness }

/-- The parameters of `make_keycap`. -/
structure KeycapArgs where
  unit_x : ℚ
  unit_y : ℚ
  base_dim : ℚ
  top_dim : ℚ
  b_fillet : ℚ
  t_fillet : ℚ
  s_fillet : ℚ
  height : ℚ
  depth : ℚ
  angle : ℚ
  convex : Bool
  pos : Bool
  stem_type : String
deriving DecidableEq

/-- The default arguments of `make_keycap` (src/opk.py lines 292-306),
each default copied verbatim from the signature; in particular line 302
reads `angle: float = depth`, so the `angle` default is the module
constant `depth`, and line 304 is the literal `False`. -/
def make_keycap_defaults : KeycapArgs :=
  { unit_x := unit_x
    unit_y := unit_y
    base_dim := base_dim
    top_dim := top_dim
    b_fillet := b_fillet
    t_fillet := t_fillet
    s_fillet := s_fillet
    height := height
    depth := depth
    angle := depth
    convex := convex
    pos := false
    stem_type := "cherry" }

/-- A kernel operation performed by `make_keycap`, in program order. -/
inductive GeomOp
  | scoopBuild : ScoopBody → GeomOp
  | shellLoft : ShellSpec → GeomOp
  | cutScoop : GeomOp
  | filletAttempt : ℚ → Bool → GeomOp
  | stemBuild : ℚ × ℚ → StemProfile → GeomOp
  | stemIntersect : GeomOp
  | assembleFinal : GeomOp
deriving DecidableEq

/-- How a `make_keycap` run can fail to return a value: a Python
`TypeError` raised by `make_stems`, or the retry loop outliving the fuel,
which models divergence. -/
inductive PyError
  | typeError : String → PyError
  | nonTermination : PyError
deriving DecidableEq

/-- The finished keycap recipe returned by a successful `make_keycap`. -/
structure KeycapPlan where
  baseDims : List ℚ
  topDims : List ℚ
  baseInnerDims : List ℚ
  topInnerDims : List ℚ
  scoop : ScoopBody
  innerShell : ShellSpec
  outerShell : ShellSpec
  surfaceFillet : ℚ
  stems : List ((ℚ × ℚ) × StemProfile)
deriving DecidableEq

/-- The scoop body `make_keycap` builds at src/opk.py line 312:
`make_scoop(*base_dims, height, angle, convex)`, reading the global
`depth` inside `make_scoop`.  The `depth` argument of `make_keycap` does
not occur. -/
def make_keycap_scoop (a : KeycapArgs) (g : Globals) : ScoopBody :=
  let base_dims := calc_base_dim a.unit_x a.unit_y a.base_dim
  make_scoop (base_dims.getD 0 0) (base_dims.getD 1 0) a.height a.angle a.convex g.depth

/-- `make_keycap`, embedded with the kernel-call trace it performs and its
outcome.  Program order follows src/opk.py lines 307-339: dims, scoop,
convex `t_fillet` reduction, inner shell, outer shell plus scoop cut, the
fillet retry loop, then `make_stems` (whose `TypeError` check runs after
the point computation but before any stem solid), intersection and final
Boolean assembly. -/
def make_keycap_run (a : KeycapArgs) (g : Globals) (fillet_ok : ℚ → Bool)
    (fuel : ℕ) : List GeomOp × Except PyError KeycapPlan :=
  let base_dims := calc_base_dim a.unit_x a.unit_y a.base_dim
  let top_dims := calc_top_dim base_dims a.top_dim
  let base_inner_dims := base_dims.map (fun x => x - g.thickness)
  let top_inner_dims := top_dims.map (fun x => x - g.thickness)
  let scoop := make_keycap_scoop a g
  let t_fillet := if a.convex then a.t_fillet * 0.7 else a.t_fillet
  let inner_shell :=
    make_keycap_shell base_inner_dims a.b_fillet top_inner_dims t_fillet
      (a.height - a.depth - g.thickness) a.angle
  let outer_shell :=
    make_keycap_shell base_dims a.b_fillet top_dims t_fillet a.height a.angle
  let pre : List GeomOp :=
    [GeomOp.scoopBuild scoop, GeomOp.shellLoft inner_shell,
     GeomOp.shellLoft outer_shell, GeomOp.cutScoop]
  let ftrace :=
    (fillet_trace fillet_ok a.s_fillet fuel).map fun rb =>
      GeomOp.filletAttempt rb.1 rb.2
  match fillet_retry fillet_ok a.s_fillet fuel with
  | none => (pre ++ ftrace, Except.error PyError.nonTermination)
  | some r =>
    match make_stems a.unit_x a.unit_y a.pos a.stem_type with
    | Except.error msg => (pre ++ ftrace, Except.error (PyError.typeError msg))
    | Except.ok stems =>
      (pre ++ ftrace ++ stems.map (fun s => GeomOp.stemBuild s.1 s.2) ++
         [GeomOp.stemIntersect, GeomOp.assembleFinal],
       Except.ok
         { baseDims := base_dims
           topDims := top_dims
           baseInnerDims := base_inner_dims
           topInnerDims := top_inner_dims
           scoop := scoop
           innerShell := inner_shell
           outerShell := outer_shell
           surfaceFillet := r
           stems := stems })

/-! ## Batch placement (src/generate_exports.py lines 74-121)

`export_keys` walks a table of rows; per row it keeps a cursor `x` starting
at 0 and, for each key of unit width `u`, advances by the half width
`w = 19.05 * u / 2`, places the key at the cursor, then advances by `w`
again; after each row the cursor `y` drops by 19.05.  The placement
arithmetic is embedded over the per-key unit widths. -/

/-- Centre x-positions of one row's keys, cursor starting at `x`. -/
def export_row_positions (x : ℚ) : List ℚ → List ℚ
  | [] => []
  | u :: us =>
    let w := 19.05 * u / 2
    (x + w) :: export_row_positions (x + w + w) us

/-- Placements of all rows, cursor starting at `y`. -/
def export_rows_positions (y : ℚ) : List (List ℚ) → List (List (ℚ × ℚ))
  | [] => []
  | r :: rs =>
    (export_row_positions 0 r).map (fun xp => (xp, y)) ::
      export_rows_positions (y - 19.05) rs

/-- The (x, y) centre assigned by `export_keys` to every key, given the
table of per-row unit widths. -/
def export_keys_positions (rows : List (List ℚ)) : List (List (ℚ × ℚ)) :=
  export_rows_positions 0 rows

/-! ## Helper lemmas -/

theorem mem_insert_by_sum (a p : ℚ × ℚ) (l : List (ℚ × ℚ)) :
    a ∈ insert_by_sum p l ↔ a = p ∨ a ∈ l := by
  induction l with
  | nil => simp [insert_by_sum]
  | cons q qs ih =>
    by_cases h : q.1 + q.2 ≤ p.1 + p.2
    · simp only [insert_by_sum, if_pos h, List.mem_cons, ih]
      tauto
    · simp only [insert_by_sum, if_neg h, List.mem_cons]

theorem length_insert_by_sum (p : ℚ × ℚ) (l : List (ℚ × ℚ)) :
    (insert_by_sum p l).length = l.length + 1 := by
  induction l with
  | nil => simp [insert_by_sum]
  | cons q qs ih =>
    by_cases h : q.1 + q.2 ≤ p.1 + p.2
    · simp [insert_by_sum, if_pos h, ih]
    · simp [insert_by_sum, if_neg h]

theorem mem_foldl_insert_by_sum (l : List (ℚ × ℚ)) :
    ∀ (acc : List (ℚ × ℚ)) (a : ℚ × ℚ),
      a ∈ l.foldl (fun acc p => insert_by_sum p acc) acc ↔ a ∈ acc ∨ a ∈ l := by
  induction l with
  | nil => simp
  | cons q qs ih =>
    intro acc a
    simp only [List.foldl_cons, ih, mem_insert_by_sum, List.mem_cons]
    tauto

theorem mem_sort_by_sum (a : ℚ × ℚ) (l : List (ℚ × ℚ)) :
    a ∈ sort_by_sum l ↔ a ∈ l := by
  simp [sort_by_sum, mem_foldl_insert_by_sum]

theorem length_foldl_insert_by_sum (l : List (ℚ × ℚ)) :
    ∀ acc : List (ℚ × ℚ),
      (l.foldl (fun acc p => insert_by_sum p acc) acc).length =
        acc.length + l.length := by
  induction l with
  | nil => simp
  | cons q qs ih =>
    intro acc
    simp only [List.foldl_cons, ih, length_insert_by_sum, List.length_cons]
    omega

theorem length_sort_by_sum (l : List (ℚ × ℚ)) :
    (sort_by_sum l).length = l.length := by
  simp [sort_by_sum, length_foldl_insert_by_sum]

/-! ## Claim theorems -/

/-- C8: for every unit multiplier, `calc_base_dim` computes
`19.05 * u - (19.05 - base_dim)` on each axis; that expression is strictly
monotone in the multiplier (stated for `0 < u1 < u2`); and `calc_top_dim`
subtracts from each base axis the constant offset
`min(base dims) - top_dim` derived from the smaller base axis. -/
theorem calc_dims_spec (ux uy bd td u1 u2 : ℚ) (h0 : 0 < u1) (h12 : u1 < u2) :
    calc_base_dim ux uy bd =
      [19.05 * ux - (19.05 - bd), 19.05 * uy - (19.05 - bd)] ∧
    19.05 * u1 - (19.05 - bd) < 19.05 * u2 - (19.05 - bd) ∧
    calc_top_dim (calc_base_dim ux uy bd) td =
      [19.05 * ux - (19.05 - bd) -
         (min (19.05 * ux - (19.05 - bd)) (19.05 * uy - (19.05 - bd)) - td),
       19.05 * uy - (19.05 - bd) -
         (min (19.05 * ux - (19.05 - bd)) (19.05 * uy - (19.05 - bd)) - td)] := by
  refine ⟨rfl, by nlinarith, ?_⟩
  simp [calc_base_dim, calc_top_dim, py_min]

/-- Witness for C8 at the module reference sizes and multipliers 1 < 2. -/
theorem calc_dims_spec_witness :
    calc_base_dim 2 1 18.2 =
      [19.05 * 2 - (19.05 - 18.2), 19.05 * 1 - (19.05 - 18.2)] ∧
    (19.05 : ℚ) * 1 - (19.05 - 18.2) < 19.05 * 2 - (19.05 - 18.2) ∧
    calc_top_dim (calc_base_dim 2 1 18.2) 12.5 =
      [19.05 * 2 - (19.05 - 18.2) -
         (min (19.05 * 2 - (19.05 - 18.2)) (19.05 * 1 - (19.05 - 18.2)) - 12.5),
       19.05 * 1 - (19.05 - 18.2) -
         (min (19.05 * 2 - (19.05 - 18.2)) (19.05 * 1 - (19.05 - 18.2)) - 12.5)] :=
  calc_dims_spec 2 1 18.2 12.5 1 2 (by norm_num) (by norm_num)

/-- C1: if the kernel fillet fails at every radius `s - 0.1*i` for `i < N`
and succeeds at `s - 0.1*N`, the retry loop terminates (with any fuel above
`N`) and applies the fillet at effective radius exactly `s - 0.1*N`, which
never exceeds the requested radius `s`. -/
theorem fillet_retry_first_success (fillet_ok : ℚ → Bool) (s : ℚ) (N : ℕ)
    (hfail : ∀ i < N, fillet_ok (s - 0.1 * i) = false)
    (hsucc : fillet_ok (s - 0.1 * N) = true) :
    (∀ fuel, N < fuel → fillet_retry fillet_ok s fuel = some (s - 0.1 * N)) ∧
      s - 0.1 * N ≤ s := by
  constructor
  · induction N generalizing s with
    | zero =>
      intro fuel hfuel
      obtain ⟨m, rfl⟩ : ∃ m, fuel = m + 1 := ⟨fuel - 1, by omega⟩
      have h0 : fillet_ok s = true := by
        simpa using hsucc
      simp [fillet_retry, h0]
    | succ n ih =>
      intro fuel hfuel
      obtain ⟨m, rfl⟩ : ∃ m, fuel = m + 1 := ⟨fuel - 1, by omega⟩
      have h0 : fillet_ok s = false := by
        simpa using hfail 0 (Nat.succ_pos n)
      have hstep : ∀ i < n, fillet_ok (s - 0.1 - 0.1 * i) = false := by
        intro i hi
        have := hfail (i + 1) (by omega)
        have harg : s - 0.1 * ((i : ℚ) + 1) = s - 0.1 - 0.1 * i := by ring
        rw [Nat.cast_add, Nat.cast_one, harg] at this
        exact this
      have hsucc' : fillet_ok (s - 0.1 - 0.1 * n) = true := by
        have harg : s - 0.1 * ((n : ℚ) + 1) = s - 0.1 - 0.1 * n := by ring
        rw [Nat.cast_succ, harg] at hsucc
        exact hsucc
      have := ih (s - 0.1) hstep hsucc' m (by omega)
      simp only [fillet_retry, h0, Bool.false_eq_true, if_false, this]
      congr 1
      push_cast
      ring
  · have : (0 : ℚ) ≤ 0.1 * N := by positivity
    linarith

/-- Witness for C1: oracle succeeding only at radii at most 0.7, requested
radius 0.9: two failures, success at the third attempt, radius 0.7. -/
theorem fillet_retry_first_success_witness :
    fillet_retry (fun r => decide (r ≤ (0.7 : ℚ))) 0.9 3 =
      some ((0.9 : ℚ) - 0.1 * ((2 : ℕ) : ℚ)) ∧
    (0.9 : ℚ) - 0.1 * ((2 : ℕ) : ℚ) ≤ 0.9 := by
  have h := fillet_retry_first_success (fun r => decide (r ≤ (0.7 : ℚ))) 0.9 2
    (by
      intro i hi
      interval_cases i <;> norm_num)
    (by norm_num)
  exact ⟨h.1 3 (by norm_num), h.2⟩

/-- C2: if the kernel fillet fails at every radius, the retry loop never
terminates: for every fuel bound it is still running (`none`), and
`make_keycap` neither returns a keycap nor surfaces a Python error — every
fuel bound ends in the divergence marker `nonTermination`. -/
theorem make_keycap_fillet_diverges (a : KeycapArgs) (g : Globals)
    (fillet_ok : ℚ → Bool) (h : ∀ r, fillet_ok r = false) :
    (∀ fuel, fillet_retry fillet_ok a.s_fillet fuel = none) ∧
    (∀ fuel, (make_keycap_run a g fillet_ok fuel).2 =
      Except.error PyError.nonTermination) := by
  have hnone : ∀ (fuel : ℕ) (s : ℚ), fillet_retry fillet_ok s fuel = none := by
    intro fuel
    induction fuel with
    | zero => intro s; rfl
    | succ m ih =>
      intro s
      simp [fillet_retry, h s, ih]
  refine ⟨fun fuel => hnone fuel _, fun fuel => ?_⟩
  simp only [make_keycap_run, hnone fuel a.s_fillet]

/-- Witness for C2: a constantly failing oracle on the default arguments,
checked at fuel 2. -/
theorem make_keycap_fillet_diverges_witness :
    fillet_retry (fun _ => false) make_keycap_defaults.s_fillet 2 = none ∧
    (make_keycap_run make_keycap_defaults module_globals (fun _ => false) 2).2 =
      Except.error PyError.nonTermination := by
  have h := make_keycap_fillet_diverges make_keycap_defaults module_globals
    (fun _ => false) (fun _ => rfl)
  exact ⟨h.1 2, h.2 2⟩

/-- C4: the claim that every `make_keycap` default equals the module
constant of the same name fails for `angle`: line 302 of src/opk.py reads
`angle: float = depth`, so the `angle` default is 2.5 (the module `depth`),
not the module reference `angle = 2`.  Every other same-named default does
match its module constant. -/
theorem make_keycap_default_angle_bug :
    make_keycap_defaults.angle = depth ∧
    make_keycap_defaults.angle = 2.5 ∧
    angle = 2 ∧
    make_keycap_defaults.angle ≠ angle ∧
    make_keycap_defaults.unit_x = unit_x ∧
    make_keycap_defaults.unit_y = unit_y ∧
    make_keycap_defaults.base_dim = base_dim ∧
    make_keycap_defaults.top_dim = top_dim ∧
    make_keycap_defaults.b_fillet = b_fillet ∧
    make_keycap_defaults.t_fillet = t_fillet ∧
    make_keycap_defaults.s_fillet = s_fillet ∧
    make_keycap_defaults.height = height ∧
    make_keycap_defaults.depth = depth ∧
    make_keycap_defaults.convex = convex ∧
    make_keycap_defaults.pos = pos := by
  refine ⟨rfl, by norm_num [make_keycap_defaults, depth], by norm_num [angle],
    ?_, rfl, rfl, rfl, rfl, rfl, rfl, rfl, rfl, rfl, rfl, rfl⟩
  norm_num [make_keycap_defaults, depth, angle]

/-- Reduction of `calc_stem_points` at `pos = false` to its branch lists. -/
theorem calc_stem_points_false_eq (ux uy : ℚ) :
    calc_stem_points ux uy false =
      sort_by_sum
        (if uy > ux then
          (if (if ux ≥ uy then ux else uy) > 2.75 then
            [((0 : ℚ), (0 : ℚ)),
             ((if ux ≥ uy then ux else uy) / 2 * 19.05 - 19.05 / 2, 0),
             (-((if ux ≥ uy then ux else uy) / 2 * 19.05 - 19.05 / 2), 0)]
          else if (if ux ≥ uy then ux else uy) > 1.75 then
            [((0 : ℚ), (0 : ℚ)), ((2.25 : ℚ) / 2 * 19.05 - 19.05 / 2, 0),
             (-((2.25 : ℚ) / 2 * 19.05 - 19.05 / 2), 0)]
          else [((0 : ℚ), (0 : ℚ))]).map (fun p => (p.2, p.1))
        else
          (if (if ux ≥ uy then ux else uy) > 2.75 then
            [((0 : ℚ), (0 : ℚ)),
             ((if ux ≥ uy then ux else uy) / 2 * 19.05 - 19.05 / 2, 0),
             (-((if ux ≥ uy then ux else uy) / 2 * 19.05 - 19.05 / 2), 0)]
          else if (if ux ≥ uy then ux else uy) > 1.75 then
            [((0 : ℚ), (0 : ℚ)), ((2.25 : ℚ) / 2 * 19.05 - 19.05 / 2, 0),
             (-((2.25 : ℚ) / 2 * 19.05 - 19.05 / 2), 0)]
          else [((0 : ℚ), (0 : ℚ))])) := by
  simp only [calc_stem_points, ite_self, Bool.not_false, ite_true,
    List.singleton_append]

/-- The longer-axis expression of the source equals `max`. -/
theorem stem_width_eq_max (ux uy : ℚ) :
    (if ux ≥ uy then ux else uy) = max ux uy := by
  by_cases h : ux ≥ uy
  · rw [if_pos h, max_eq_left h]
  · rw [if_neg h, max_eq_right (le_of_not_le h)]

/-- With the standard style, a longer axis of at most 1.75 units leaves
only the centre stem. -/
theorem calc_stem_points_false_small (ux uy : ℚ)
    (hsmall : max ux uy ≤ 1.75) :
    calc_stem_points ux uy false = [(0, 0)] := by
  rw [calc_stem_points_false_eq, stem_width_eq_max]
  have h1 : ¬ ((2.75 : ℚ) < max ux uy) := by
    intro hc
    linarith
  have h2 : ¬ ((1.75 : ℚ) < max ux uy) := not_lt.mpr hsmall
  by_cases hyx : uy > ux
  · simp only [if_pos hyx, if_neg h1, if_neg h2]
    simp [sort_by_sum, insert_by_sum]
  · simp only [if_neg hyx, if_neg h1, if_neg h2]
    simp [sort_by_sum, insert_by_sum]

/-- C3: with the standard (non-POS) style, the stem set always contains the
centre; above 2.75 units on the longer axis it contains the two points at
distance `w/2*19.05 - 19.05/2` from centre along that axis; between 1.75
(exclusive) and 2.75 (inclusive, so in particular at exactly 2.75) it
contains the two points at the fixed 2.25-unit distance
`2.25/2*19.05 - 19.05/2`; at or below 1.75 the centre is the only stem.
The extra points lie on the x axis, swapped to y when the key is taller
than wide. -/
theorem calc_stem_points_standard_spec (ux uy : ℚ) :
    ((0 : ℚ), (0 : ℚ)) ∈ calc_stem_points ux uy false ∧
    (2.75 < max ux uy →
      (if uy > ux then ((0 : ℚ), max ux uy / 2 * 19.05 - 19.05 / 2)
        else (max ux uy / 2 * 19.05 - 19.05 / 2, (0 : ℚ))) ∈
          calc_stem_points ux uy false ∧
      (if uy > ux then ((0 : ℚ), -(max ux uy / 2 * 19.05 - 19.05 / 2))
        else (-(max ux uy / 2 * 19.05 - 19.05 / 2), (0 : ℚ))) ∈
          calc_stem_points ux uy false) ∧
    (1.75 < max ux uy → max ux uy ≤ 2.75 →
      (if uy > ux then ((0 : ℚ), (2.25 : ℚ) / 2 * 19.05 - 19.05 / 2)
        else ((2.25 : ℚ) / 2 * 19.05 - 19.05 / 2, (0 : ℚ))) ∈
          calc_stem_points ux uy false ∧
      (if uy > ux then ((0 : ℚ), -((2.25 : ℚ) / 2 * 19.05 - 19.05 / 2))
        else (-((2.25 : ℚ) / 2 * 19.05 - 19.05 / 2), (0 : ℚ))) ∈
          calc_stem_points ux uy false) ∧
    (max ux uy ≤ 1.75 → calc_stem_points ux uy false = [(0, 0)]) := by
  rw [calc_stem_points_false_eq, stem_width_eq_max]
  refine ⟨?_, ?_, ?_, ?_⟩
  · simp only [mem_sort_by_sum]
    split_ifs <;> simp
  · intro hbig
    by_cases hyx : uy > ux
    · simp only [if_pos hyx, if_pos hbig, mem_sort_by_sum]
      constructor <;> simp
    · simp only [if_neg hyx, if_pos hbig, mem_sort_by_sum]
      constructor <;> simp
  · intro hmid hcap
    have hno : ¬ ((2.75 : ℚ) < max ux uy) := not_lt.mpr hcap
    by_cases hyx : uy > ux
    · simp only [if_pos hyx, if_neg hno, if_pos hmid, mem_sort_by_sum]
      constructor <;> simp
    · simp only [if_neg hyx, if_neg hno, if_pos hmid, mem_sort_by_sum]
      constructor <;> simp
  · intro hsmall
    rw [← stem_width_eq_max, ← calc_stem_points_false_eq]
    exact calc_stem_points_false_small ux uy hsmall

/-- Witness for C3 at a 3u-by-1u key: the centre and the two stabilizer
points at `3/2*19.05 - 19.05/2 = 19.05` are placed. -/
theorem calc_stem_points_standard_spec_witness :
    ((0 : ℚ), (0 : ℚ)) ∈ calc_stem_points 3 1 false ∧
    ((19.05 : ℚ), (0 : ℚ)) ∈ calc_stem_points 3 1 false ∧
    (-(19.05 : ℚ), (0 : ℚ)) ∈ calc_stem_points 3 1 false := by
  have h := calc_stem_points_standard_spec 3 1
  have hbig := h.2.1 (by norm_num)
  have hno : ¬ ((1 : ℚ) > 3) := by norm_num
  rw [if_neg hno, if_neg hno] at hbig
  have he1 : max (3 : ℚ) 1 / 2 * 19.05 - 19.05 / 2 = 19.05 := by norm_num
  rw [he1] at hbig
  exact ⟨h.1, hbig.1, hbig.2⟩

/-- C7 counterexample: at `unit_x = 1.9 < 2`, `unit_y = 1 < 2` the claim
fails: the longer axis 1.9 exceeds 1.75, so two 2.25u stabilizer points are
added and the result is not the single centre stem. -/
theorem calc_stem_points_small_not_single_cex :
    (1.9 : ℚ) < 2 ∧ (1 : ℚ) < 2 ∧
    calc_stem_points 1.9 1 true ≠ [(0, 0)] := by
  norm_num [calc_stem_points, sort_by_sum, insert_by_sum]

/-- C7 amended: for `unit_x < 2` and `unit_y < 2` the POS flag is forced
off, so the result matches the standard layout for any requested style; it
is the single centre stem `[(0, 0)]` exactly when the longer axis is at
most 1.75 units, while for a longer axis in (1.75, 2) the two 2.25u
stabilizer points are added (three stems). -/
theorem calc_stem_points_small_forced_standard (ux uy : ℚ) (p : Bool)
    (hx : ux < 2) (hy : uy < 2) :
    calc_stem_points ux uy p = calc_stem_points ux uy false ∧
    (max ux uy ≤ 1.75 → calc_stem_points ux uy p = [(0, 0)]) ∧
    (1.75 < max ux uy → (calc_stem_points ux uy p).length = 3) := by
  have hforced : calc_stem_points ux uy p = calc_stem_points ux uy false := by
    simp [calc_stem_points, if_pos (And.intro hx hy)]
  refine ⟨hforced, fun hsmall => ?_, fun hmid => ?_⟩
  · rw [hforced]
    exact calc_stem_points_false_small ux uy hsmall
  · rw [hforced, calc_stem_points_false_eq, stem_width_eq_max]
    have hcap : ¬ ((2.75 : ℚ) < max ux uy) := by
      rcases max_cases ux uy with ⟨he, _⟩ | ⟨he, _⟩ <;> rw [he] <;> linarith
    by_cases hyx : uy > ux
    · simp only [if_pos hyx, if_neg hcap, if_pos hmid, length_sort_by_sum,
        List.length_map, List.length_cons, List.length_nil]
    · simp only [if_neg hyx, if_neg hcap, if_pos hmid, length_sort_by_sum,
        List.length_cons, List.length_nil]

/-- Witness for C7 at the 1u-by-1u key requested with POS style. -/
theorem calc_stem_points_small_forced_standard_witness :
    calc_stem_points 1 1 true = [(0, 0)] :=
  (calc_stem_points_small_forced_standard 1 1 true (by norm_num)
    (by norm_num)).2.1 (by norm_num)

/-- C5: for a non-convex key the scoop body `make_keycap` carves is
independent of the `depth` argument of the call — two invocations differing
only in `depth` build identical scoop bodies (first conjunct), and the scoop
the run actually builds first is exactly this body (second conjunct) — while
it does depend on the module-level `depth` global: distinct global values
give distinct scoops for fixed arguments (third conjunct). -/
theorem make_keycap_scoop_depth_dependence (a : KeycapArgs) (g g1 g2 : Globals)
    (d1 d2 : ℚ) (fillet_ok : ℚ → Bool) (fuel : ℕ) (hconv : a.convex = false) :
    make_keycap_scoop { a with depth := d1 } g =
      make_keycap_scoop { a with depth := d2 } g ∧
    (make_keycap_run { a with depth := d1 } g fillet_ok fuel).1.head? =
      some (GeomOp.scoopBuild (make_keycap_scoop { a with depth := d1 } g)) ∧
    (g1.depth ≠ g2.depth → make_keycap_scoop a g1 ≠ make_keycap_scoop a g2) := by
  refine ⟨rfl, ?_, ?_⟩
  · simp only [make_keycap_run]
    cases hf : fillet_retry fillet_ok
        ({ a with depth := d1 } : KeycapArgs).s_fillet fuel with
    | none => simp
    | some r =>
      cases hs : make_stems ({ a with depth := d1 } : KeycapArgs).unit_x
          ({ a with depth := d1 } : KeycapArgs).unit_y
          ({ a with depth := d1 } : KeycapArgs).pos
          ({ a with depth := d1 } : KeycapArgs).stem_type with
      | error msg => simp
      | ok stems => simp
  · intro hne heq
    simp only [make_keycap_scoop, make_scoop, hconv, Bool.false_eq_true,
      if_false, ScoopBody.loftBody.injEq, LoftScoop.mk.injEq,
      ArcProfile.mk.injEq, Prod.mk.injEq, neg_inj] at heq
    apply hne
    tauto

/-- The default arguments with the convex flag cleared, for concrete
non-convex checks. -/
def nonconvex_defaults : KeycapArgs :=
  { make_keycap_defaults with convex := false }

/-- Witness for C5: default arguments made non-convex; depth arguments 1
and 7, globals of depth 2.5 and 3.5. -/
theorem make_keycap_scoop_depth_dependence_witness :
    make_keycap_scoop { nonconvex_defaults with depth := 1 } module_globals =
      make_keycap_scoop { nonconvex_defaults with depth := 7 }
        module_globals ∧
    (make_keycap_run { nonconvex_defaults with depth := 1 } module_globals
        (fun _ => true) 1).1.head? =
      some (GeomOp.scoopBuild (make_keycap_scoop
        { nonconvex_defaults with depth := 1 } module_globals)) ∧
    (({ depth := 2.5, thickness := 1.5 } : Globals).depth ≠
        ({ depth := 3.5, thickness := 1.5 } : Globals).depth →
      make_keycap_scoop nonconvex_defaults
          { depth := 2.5, thickness := 1.5 } ≠
        make_keycap_scoop nonconvex_defaults
          { depth := 3.5, thickness := 1.5 }) :=
  make_keycap_scoop_depth_dependence nonconvex_defaults module_globals
    { depth := 2.5, thickness := 1.5 } { depth := 3.5, thickness := 1.5 }
    1 7 (fun _ => true) 1 rfl

/-- C6 counterexample: calling `make_keycap` with stem type "box" (not
"cherry"/"alps") does raise a caller-visible `TypeError`, but not before
any geometry work: the kernel-call trace preceding the failure is nonempty
(the scoop, both shells, the cut and a fillet have already been built). -/
theorem make_keycap_bad_stem_cex :
    (make_keycap_run { make_keycap_defaults with stem_type := "box" }
        module_globals (fun _ => true) 1).2 =
      Except.error (PyError.typeError
        "stem type must be one of [\"cherry\", \"alps\"]") ∧
    (make_keycap_run { make_keycap_defaults with stem_type := "box" }
        module_globals (fun _ => true) 1).1 ≠ [] := by
  constructor
  · simp [make_keycap_run, fillet_retry, make_stems]
  · simp [make_keycap_run, fillet_retry, make_stems]

/-- C6 amended: with an unrecognised stem type, whenever the fillet loop
terminates, `make_keycap` fails with the caller-visible `TypeError` raised
by `make_stems` — but only after the scoop/shell/fillet geometry; no stem
geometry is ever built. -/
theorem make_keycap_bad_stem_type_error (a : KeycapArgs) (g : Globals)
    (fillet_ok : ℚ → Bool) (fuel : ℕ) (r : ℚ)
    (hty : ¬ (a.stem_type ∈ ["cherry", "alps"]))
    (hterm : fillet_retry fillet_ok a.s_fillet fuel = some r) :
    (make_keycap_run a g fillet_ok fuel).2 =
      Except.error (PyError.typeError
        "stem type must be one of [\"cherry\", \"alps\"]") ∧
    ∀ op ∈ (make_keycap_run a g fillet_ok fuel).1,
      ∀ p prof, op ≠ GeomOp.stemBuild p prof := by
  have hstems : make_stems a.unit_x a.unit_y a.pos a.stem_type =
      Except.error "stem type must be one of [\"cherry\", \"alps\"]" := by
    simp only [make_stems, if_pos hty]
  constructor
  · simp only [make_keycap_run, hterm, hstems]
  · simp only [make_keycap_run, hterm, hstems]
    intro op hop p prof
    rcases List.mem_append.mp hop with hpre | hfa
    · simp only [List.mem_cons, List.not_mem_nil, or_false] at hpre
      rcases hpre with rfl | rfl | rfl | rfl <;> simp
    · obtain ⟨rb, -, rfl⟩ := List.mem_map.mp hfa
      simp

/-- Witness for C6's amended theorem at stem type "box" with an immediately
succeeding fillet oracle. -/
theorem make_keycap_bad_stem_type_error_witness :
    (make_keycap_run { make_keycap_defaults with stem_type := "box" }
        module_globals (fun _ => true) 1).2 =
      Except.error (PyError.typeError
        "stem type must be one of [\"cherry\", \"alps\"]") ∧
    ∀ op ∈ (make_keycap_run { make_keycap_defaults with stem_type := "box" }
        module_globals (fun _ => true) 1).1,
      ∀ p prof, op ≠ GeomOp.stemBuild p prof :=
  make_keycap_bad_stem_type_error _ _ _ _ 0.9 (by simp)
    (by simp [fillet_retry, make_keycap_defaults, s_fillet])

/-- C9: in `make_stems`, a stem placed at a point is built with the alps
profile exactly when the point is the centre (0, 0) and the requested type
is "alps"; every other placed stem — so in particular every secondary
stabilizer stem of an alps-type key — uses the cherry profile. -/
theorem make_stems_profile_rule (ux uy : ℚ) (p : Bool) (ty : String)
    (stems : List ((ℚ × ℚ) × StemProfile))
    (h : make_stems ux uy p ty = Except.ok stems) :
    ∀ pt prof, (pt, prof) ∈ stems →
      (prof = StemProfile.alps ↔ (pt = ((0 : ℚ), (0 : ℚ)) ∧ ty = "alps")) := by
  intro pt prof hmem
  by_cases hty : ty ∈ ["cherry", "alps"]
  · simp only [make_stems, if_neg (not_not_intro hty), Except.ok.injEq] at h
    subst h
    obtain ⟨q, -, heq⟩ := List.mem_map.mp hmem
    have hfst : q = pt := congrArg Prod.fst heq
    have hsnd : stem_profile_for q ty = prof := congrArg Prod.snd heq
    rw [← hsnd, ← hfst]
    by_cases hc : q = ((0 : ℚ), (0 : ℚ)) ∧ ty = "alps"
    · simp [stem_profile_for, hc]
    · simp only [stem_profile_for, if_neg hc]
      constructor
      · intro habs
        exact absurd habs (by simp)
      · intro hx
        exact absurd hx hc
  · simp only [make_stems, if_pos hty] at h
    exact absurd h (by simp)

/-- Witness for C9 on the 3u alps key: the stabilizer stem at (19.05, 0) is
not alps (it is cherry), shown by applying the rule to that stem. -/
theorem make_stems_profile_rule_witness :
    StemProfile.cherry = StemProfile.alps ↔
      (((19.05 : ℚ), (0 : ℚ)) = ((0 : ℚ), (0 : ℚ)) ∧ "alps" = "alps") := by
  have h := make_stems_profile_rule 3 1 false "alps"
    [((-(19.05 : ℚ), (0 : ℚ)), StemProfile.cherry),
     (((0 : ℚ), (0 : ℚ)), StemProfile.alps),
     (((19.05 : ℚ), (0 : ℚ)), StemProfile.cherry)]
    (by norm_num [make_stems, calc_stem_points, sort_by_sum, insert_by_sum,
      stem_profile_for])
  exact h ((19.05 : ℚ), (0 : ℚ)) StemProfile.cherry (by simp)

/-- Index formula for one row of `export_keys`: the j-th key of a row with
cursor start `x` is centred at `x` plus the full widths of the previous
keys plus its own half width, at 19.05 mm per unit. -/
theorem export_row_positions_get (us : List ℚ) :
    ∀ (j : ℕ) (x u : ℚ), us[j]? = some u →
      (export_row_positions x us)[j]? =
        some (x + 19.05 * (us.take j).sum + 19.05 * u / 2) := by
  induction us with
  | nil =>
    intro j x u h
    simp at h
  | cons v vs ih =>
    intro j x u h
    cases j with
    | zero =>
      rw [List.getElem?_cons_zero, Option.some.injEq] at h
      subst h
      show ((x + 19.05 * v / 2) :: export_row_positions
        (x + 19.05 * v / 2 + 19.05 * v / 2) vs)[(0 : ℕ)]? = _
      rw [List.getElem?_cons_zero, Option.some.injEq]
      simp
    | succ n =>
      rw [List.getElem?_cons_succ] at h
      show ((x + 19.05 * v / 2) :: export_row_positions
        (x + 19.05 * v / 2 + 19.05 * v / 2) vs)[n + 1]? = _
      rw [List.getElem?_cons_succ,
        ih n (x + 19.05 * v / 2 + 19.05 * v / 2) u h, Option.some.injEq,
        List.take_succ_cons, List.sum_cons]
      ring

/-- Index formula for the rows of `export_keys`: the i-th row sits at
`y0 - 19.05 * i` with its keys at the row cursor positions. -/
theorem export_rows_positions_get (rows : List (List ℚ)) :
    ∀ (i : ℕ) (y : ℚ) (row : List ℚ), rows[i]? = some row →
      (export_rows_positions y rows)[i]? =
        some ((export_row_positions 0 row).map
          (fun xp => (xp, y - 19.05 * (i : ℚ)))) := by
  induction rows with
  | nil =>
    intro i y row h
    simp at h
  | cons r rs ih =>
    intro i y row h
    cases i with
    | zero =>
      rw [List.getElem?_cons_zero, Option.some.injEq] at h
      subst h
      show (((export_row_positions 0 r).map (fun xp => (xp, y))) ::
        export_rows_positions (y - 19.05) rs)[(0 : ℕ)]? = _
      rw [List.getElem?_cons_zero, Option.some.injEq]
      have harg : (fun xp : ℚ => (xp, y)) =
          (fun xp : ℚ => (xp, y - 19.05 * ((0 : ℕ) : ℚ))) := by
        funext xp
        norm_num
      rw [harg]
    | succ n =>
      rw [List.getElem?_cons_succ] at h
      show (((export_row_positions 0 r).map (fun xp => (xp, y))) ::
        export_rows_positions (y - 19.05) rs)[n + 1]? = _
      rw [List.getElem?_cons_succ, ih n (y - 19.05) row h, Option.some.injEq]
      have harg : (fun xp : ℚ => (xp, y - 19.05 - 19.05 * (n : ℚ))) =
          (fun xp : ℚ => (xp, y - 19.05 * ((n + 1 : ℕ) : ℚ))) := by
        funext xp
        rw [Prod.mk.injEq]
        refine ⟨rfl, ?_⟩
        push_cast
        ring
      rw [harg]

/-- C10: `export_keys` places the j-th key of a row of unit widths at
`x = 19.05 * (u_0 + ... + u_{j-1} + u_j / 2)`, the running sum of
half-width increments at the 19.05 mm pitch, and each successive row
19.05 mm lower in y (row i at `y = -(19.05 * i)`). -/
theorem export_keys_placement (rows : List (List ℚ)) (i j : ℕ)
    (row : List ℚ) (u : ℚ) (hrow : rows[i]? = some row)
    (hu : row[j]? = some u) :
    ((export_keys_positions rows)[i]?).bind (fun r => r[j]?) =
      some (19.05 * ((row.take j).sum + u / 2), -(19.05 * (i : ℚ))) := by
  rw [export_keys_positions, export_rows_positions_get rows i 0 row hrow]
  simp only [Option.some_bind]
  rw [List.getElem?_map, export_row_positions_get row j 0 u hu]
  simp only [Option.map_some', Option.some.injEq, Prod.mk.injEq]
  constructor
  · ring
  · ring

/-- Witness for C10: the middle key of the row with widths 1, 1.25, 1.5 is
centred at `19.05 * (1 + 1.25/2)` in the first row (y = 0). -/
theorem export_keys_placement_witness :
    ((export_keys_positions [[1, 1.25, 1.5]])[(0 : ℕ)]?).bind
        (fun r => r[(1 : ℕ)]?) =
      some (19.05 * ((([(1 : ℚ), 1.25, 1.5]).take 1).sum + 1.25 / 2),
        -(19.05 * ((0 : ℕ) : ℚ))) :=
  export_keys_placement [[1, 1.25, 1.5]] 0 1 [1, 1.25, 1.5] 1.25 rfl rfl

end OPK
